import Mathlib

/-!
Shallow embedding of the FBLA repository (a Django CRUD application:
`stavros/users/models.py`, `stavros/users/urls.py`, the `partneredu`
migration and view tests).  Data rows are Lean structures, the database is
a list of rows, saves are explicit functions returning `Except` so that a
failed save produces no partial state, and the slug / phone-number logic
is translated directly from the model code.
-/

namespace Stavros

/-! ## Slug generation

`Organization.save` and `Announcement.save` call `slugify` from the
external `slugify` package (`from slugify.slugify import slugify`), whose
code is not part of this repository. -/

/-- Modelled from the spec: the transliteration step of the external
`slugify` function, which collapses unicode variants of Latin letters to
their ASCII base letter ("transliterating the source text ... collapsing
unicode variants").  A representative table of accented variants; any
character not in the table is left unchanged. -/
def translitChar (c : Char) : Char :=
  if c = 'é' ∨ c = 'è' ∨ c = 'ê' ∨ c = 'ë' ∨ c = 'É' then 'e'
  else if c = 'á' ∨ c = 'à' ∨ c = 'â' ∨ c = 'ä' ∨ c = 'å' ∨ c = 'Ä' then 'a'
  else if c = 'í' ∨ c = 'ì' ∨ c = 'î' ∨ c = 'ï' then 'i'
  else if c = 'ó' ∨ c = 'ò' ∨ c = 'ô' ∨ c = 'ö' ∨ c = 'Ö' then 'o'
  else if c = 'ú' ∨ c = 'ù' ∨ c = 'û' ∨ c = 'ü' ∨ c = 'Ü' then 'u'
  else if c = 'ñ' ∨ c = 'Ñ' then 'n'
  else if c = 'ç' ∨ c = 'Ç' then 'c'
  else c

/-- ASCII lowercase letter test. -/
def isAsciiLower (c : Char) : Bool :=
  'a' ≤ c && c ≤ 'z'

/-- ASCII uppercase letter test. -/
def isAsciiUpper (c : Char) : Bool :=
  'A' ≤ c && c ≤ 'Z'

/-- Lowercase an ASCII letter by an explicit table (identity elsewhere). -/
def lowerAscii (c : Char) : Char :=
  match c with
  | 'A' => 'a' | 'B' => 'b' | 'C' => 'c' | 'D' => 'd' | 'E' => 'e'
  | 'F' => 'f' | 'G' => 'g' | 'H' => 'h' | 'I' => 'i' | 'J' => 'j'
  | 'K' => 'k' | 'L' => 'l' | 'M' => 'm' | 'N' => 'n' | 'O' => 'o'
  | 'P' => 'p' | 'Q' => 'q' | 'R' => 'r' | 'S' => 's' | 'T' => 't'
  | 'U' => 'u' | 'V' => 'v' | 'W' => 'w' | 'X' => 'x' | 'Y' => 'y'
  | 'Z' => 'z'
  | _ => c

/-- Modelled from the spec: per-character normalisation of the external
`slugify` function — transliterate, lowercase, and keep only ASCII
letters and digits; every other character acts as a word separator
(`none`). -/
def normChar (c : Char) : Option Char :=
  if (lowerAscii (translitChar c)).isDigit ||
      isAsciiLower (lowerAscii (translitChar c)) then
    some (lowerAscii (translitChar c))
  else none

/-- Split a character list into maximal runs of characters accepted by
the classifier `f` (already normalised by `f`); rejected characters are
separators and are dropped.  `acc` is the current run, reversed. -/
def splitWordsF (f : Char → Option Char) : List Char → List Char → List (List Char)
  | [], acc => if acc.isEmpty then [] else [acc.reverse]
  | c :: cs, acc =>
    match f c with
    | some d => splitWordsF f cs (d :: acc)
    | none => if acc.isEmpty then splitWordsF f cs acc
              else acc.reverse :: splitWordsF f cs []

/-- Split a character list into maximal runs of slug characters. -/
def splitWordsAux (cs acc : List Char) : List (List Char) :=
  splitWordsF normChar cs acc

/-- Join words with single hyphens (no leading or trailing hyphen). -/
def joinHyphen : List (List Char) → List Char
  | [] => []
  | [w] => w
  | w :: ws => w ++ '-' :: joinHyphen ws

/-- Modelled from the spec: the external `slugify` function used by
`Organization.save` and `Announcement.save` — "compute a slug by
transliterating the source text (name or title) into a lowercase,
hyphen-separated ASCII form, collapsing unicode variants". -/
def slugify (s : String) : String :=
  String.mk (joinHyphen (splitWordsAux s.data []))

/-- A character allowed in a slug: ASCII digit, ASCII lowercase letter,
or hyphen. -/
def isSlugChar (c : Char) : Bool :=
  c.isDigit || isAsciiLower c || c = '-'

/-! ## Organization and Announcement (models.py lines 145-200) -/

/-- Errors a save can fail with; a failed save returns only the error,
so it leaves no partial state. -/
inductive SaveError where
  | uniqueViolation
  | checkViolation
  | validationError
deriving DecidableEq, Repr

/-- `Organization` (models.py lines 173-200): `id` is the auto primary
key (`None` before first save), `slug = SlugField(unique=True,
editable=False, null=True, blank=True)`. -/
structure Organization where
  id : Option Nat
  name : String
  slug : Option String
deriving DecidableEq, Repr

/-- Python truthiness of the slug field: `not self.slug` is true when the
slug is `None` or the empty string. -/
def slugTruthy : Option String → Bool
  | none => false
  | some s => !s.isEmpty

/-- The slug-assignment step of `Organization.save` (models.py lines
198-199): `if not self.id or not self.slug: self.slug =
slugify(self.name)`. -/
def Organization.assignSlug (o : Organization) : Organization :=
  if o.id.isNone || !(slugTruthy o.slug) then
    { o with slug := some (slugify o.name) }
  else o

/-- A database of saved organizations plus the next auto id. -/
structure OrgDB where
  rows : List Organization
  nextId : Nat
deriving DecidableEq, Repr

/-- `Organization.save` (models.py lines 193-200) followed by
`super().save(*args, **kwargs)`: run the slug guard, then insert (new
id) or update, with the storage layer rejecting a duplicate slug
(`unique=True`).  All-or-nothing: the error case carries no state. -/
def Organization.save (db : OrgDB) (o : Organization) :
    Except SaveError (OrgDB × Organization) :=
  let o := o.assignSlug
  match o.id with
  | none =>
    let o' := { o with id := some db.nextId }
    if db.rows.any (fun r => r.slug == o'.slug) then
      .error .uniqueViolation
    else
      .ok ({ rows := db.rows ++ [o'], nextId := db.nextId + 1 }, o')
  | some _ =>
    if db.rows.any (fun r => r.slug == o.slug && !(r.id == o.id)) then
      .error .uniqueViolation
    else
      .ok ({ rows := db.rows.map (fun r => if r.id == o.id then o else r),
             nextId := db.nextId }, o)

/-- The database state after a save attempt: on error the original
database is unchanged. -/
def dbAfterSave (db : OrgDB) (r : Except SaveError (OrgDB × Organization)) :
    OrgDB :=
  match r with
  | .ok (db', _) => db'
  | .error _ => db

/-- `Announcement` (models.py lines 145-170): `slug` as for
`Organization`, source text is `title`. -/
structure Announcement where
  id : Option Nat
  title : String
  content : String
  slug : Option String
deriving DecidableEq, Repr

/-- The slug-assignment step of `Announcement.save` (models.py lines
168-169): `if not self.id or not self.slug: self.slug =
slugify(self.title)`. -/
def Announcement.assignSlug (a : Announcement) : Announcement :=
  if a.id.isNone || !(slugTruthy a.slug) then
    { a with slug := some (slugify a.title) }
  else a

/-! ## Contact and the phone-number validator (models.py lines 119-142)

`phone_regex = RegexValidator(regex=...)` anchored as: an optional plus
sign, an optional leading one, then nine to fifteen ASCII digits. -/

/-- Nine to fifteen ASCII digits (the `\d` repetition of the pattern). -/
def digitsRun (cs : List Char) : Bool :=
  cs.all (fun c => c.isDigit) && decide (9 ≤ cs.length) &&
    decide (cs.length ≤ 15)

/-- The part of the pattern after the optional plus sign: an optional
leading one, then nine to fifteen digits.  Both alternatives of the
optional one are tried, as regex backtracking does. -/
def phoneTail (cs : List Char) : Bool :=
  digitsRun cs ||
    (match cs with
     | c :: rest => c == '1' && digitsRun rest
     | [] => false)

/-- Whether a whole string matches the `phone_regex` pattern of
`Contact` (models.py line 132).  The optional plus sign is forced when
the string starts with one (a plus is neither a digit nor a one, so the
non-consuming alternative always fails). -/
def phoneRegexAccepts (s : String) : Bool :=
  match s.data with
  | c :: rest => if c == '+' then phoneTail rest else phoneTail (c :: rest)
  | [] => phoneTail []

/-- Field-level errors on a `phone_number` value: a `CharField` with
`blank=True` skips all validators on the empty string; otherwise the
`max_length=17` bound and the `phone_regex` validator both apply
(models.py line 138). -/
def phoneNumberErrors (s : String) : List String :=
  if s.isEmpty then []
  else
    (if decide (s.length ≤ 17) then [] else ["max_length"]) ++
      (if phoneRegexAccepts s then [] else ["invalid_phone"])

/-- `Contact` (models.py lines 119-142), restricted to the fields with
local validation logic: `internal_name` is required, `phone_number`
is validated by `phoneNumberErrors`. -/
structure Contact where
  internal_name : String
  phone_number : String
deriving DecidableEq, Repr

/-- Field-level validation errors of a `Contact`, as (field, error)
pairs. -/
def contactFieldErrors (c : Contact) : List (String × String) :=
  (if c.internal_name.isEmpty then [("internal_name", "required")] else [])
    ++ (phoneNumberErrors c.phone_number).map (fun e => ("phone_number", e))

/-- A `Contact` passes validation when no field has an error. -/
def contactPassesValidation (c : Contact) : Bool :=
  (contactFieldErrors c).isEmpty

/-! ## User and the student/teacher flags -/

/-- `User` (models.py lines 26-59) together with the `is_student` /
`is_teacher` flags. -/
structure UserRow where
  id : Nat
  email : String
  name : String
  is_student : Bool
  is_teacher : Bool
deriving DecidableEq, Repr

/-- Modelled from the spec: the database check constraint of one schema
version (a migration not present here) — exactly one of `is_student`
and `is_teacher` must hold. -/
def studentTeacherCheck (u : UserRow) : Bool :=
  (u.is_student && !u.is_teacher) || (!u.is_student && u.is_teacher)

/-- Modelled from the spec: saving a `User` row — the check constraint
is "evaluated at the storage layer on every insert/update", and the
unique `email` is enforced by the storage layer. -/
def saveUserRow (db : List UserRow) (u : UserRow) :
    Except SaveError (List UserRow) :=
  if !studentTeacherCheck u then .error .checkViolation
  else if db.any (fun r => r.email == u.email && !(r.id == u.id)) then
    .error .uniqueViolation
  else if db.any (fun r => r.id == u.id) then
    .ok (db.map (fun r => if r.id == u.id then u else r))
  else .ok (db ++ [u])

/-! ## StudentProfile (models.py lines 79-101) -/

/-- `StudentProfile`, restricted to the user link and
`student_id = CharField(unique=True, max_length=9)` (models.py line
93). -/
structure StudentProfile where
  user : Nat
  student_id : String
deriving DecidableEq, Repr

/-- Field-level errors on a `student_id` value: the field is required
(no `blank=True`) and at most 9 characters (`max_length=9`); no
validator demands more. -/
def studentIdErrors (s : String) : List String :=
  (if s.isEmpty then ["required"] else []) ++
    (if decide (s.length ≤ 9) then [] else ["max_length"])

/-- Insert a `StudentProfile`: field validation, then the storage
layer's uniqueness constraint on `student_id`. -/
def saveStudentProfile (db : List StudentProfile) (p : StudentProfile) :
    Except SaveError (List StudentProfile) :=
  if !(studentIdErrors p.student_id).isEmpty then .error .validationError
  else if db.any (fun r => r.student_id == p.student_id) then
    .error .uniqueViolation
  else .ok (db ++ [p])

/-! ## Views (urls.py; views.py is not part of this repository) -/

/-- The URL of the user detail view, `path("users/<int:pk>/", ...)`
(urls.py line 23), as resolved by `reverse("users:detail", ...)`. -/
def reverseUserDetail (pk : Nat) : String :=
  "/users/" ++ toString pk ++ "/"

/-- An HTTP redirect response. -/
structure HttpRedirect where
  status : Nat
  location : String
deriving DecidableEq, Repr

/-- Modelled from the spec: `UserUpdateView.get_success_url` (views.py
is missing; its tests assert the URL equals `/users/<pk>/` for the
requesting user) — the redirect target is the requesting user's own
detail page. -/
def getSuccessUrl (requestUserPk : Nat) : String :=
  reverseUserDetail requestUserPk

/-- The success message queued by the update view (asserted verbatim by
`test_form_valid`). -/
def successMessage : String :=
  "Information successfully updated"

/-- Modelled from the spec: `UserUpdateView.form_valid` (views.py is
missing) — "user self-update returns a redirect to its own detail page
on success and appends a localized success notification to the
session".  Takes the requesting user's pk and the session's message
list, returns the redirect response and the new message list. -/
def formValid (requestUserPk : Nat) (sessionMessages : List String) :
    HttpRedirect × List String :=
  (⟨302, getSuccessUrl requestUserPk⟩, sessionMessages ++ [successMessage])

/-! ## Event join/leave (urls.py lines 32-33; views.py is missing) -/

/-- Modelled from the spec: `join_event` — "add the requesting user to
an event's attendee set, idempotently"; a `ManyToManyField.add` inserts
the relation row only when it is not already present. -/
def joinEvent (attendees : List Nat) (u : Nat) : List Nat :=
  if u ∈ attendees then attendees else attendees ++ [u]

/-- Modelled from the spec: `leave_event` — "remove the requesting user
from an event's attendee set"; a `ManyToManyField.remove` deletes the
relation rows of that user, and is a no-op when none exist. -/
def leaveEvent (attendees : List Nat) (u : Nat) : List Nat :=
  attendees.filter (fun a => !(a == u))

end Stavros

namespace Stavros

/-! ## Helper lemmas for the slug character format -/

/-- `normChar` only ever produces digits or ASCII lowercase letters. -/
theorem normChar_good {c d : Char} (h : normChar c = some d) :
    (d.isDigit || isAsciiLower d) = true := by
  unfold normChar at h
  split at h
  · cases h
    assumption
  · cases h

/-- Equation lemma: `splitWordsF` when the head is accepted. -/
theorem splitWordsF_cons_some {f : Char → Option Char} {x d : Char}
    (h : f x = some d) (cs acc : List Char) :
    splitWordsF f (x :: cs) acc = splitWordsF f cs (d :: acc) := by
  rw [splitWordsF, h]

/-- Equation lemma: `splitWordsF` when the head is a separator. -/
theorem splitWordsF_cons_none {f : Char → Option Char} {x : Char}
    (h : f x = none) (cs acc : List Char) :
    splitWordsF f (x :: cs) acc =
      if acc.isEmpty then splitWordsF f cs acc
      else acc.reverse :: splitWordsF f cs [] := by
  rw [splitWordsF, h]

/-- Every character of every word produced by `splitWordsF f` satisfies
any property `p` that `f`-outputs satisfy, provided the accumulator
does. -/
theorem splitWordsF_good (f : Char → Option Char) (p : Char → Prop)
    (hf : ∀ c d, f c = some d → p d) :
    ∀ (cs acc : List Char), (∀ c ∈ acc, p c) →
      ∀ w ∈ splitWordsF f cs acc, ∀ c ∈ w, p c := by
  intro cs
  induction cs with
  | nil =>
    intro acc hacc w hw c hc
    rw [splitWordsF] at hw
    split at hw
    · simp at hw
    · simp at hw
      subst hw
      exact hacc c (List.mem_reverse.mp hc)
  | cons x xs ih =>
    intro acc hacc w hw c hc
    cases hn : f x with
    | some d =>
      rw [splitWordsF_cons_some hn] at hw
      refine ih (d :: acc) ?_ w hw c hc
      intro e he
      rcases List.mem_cons.mp he with rfl | he
      · exact hf x e hn
      · exact hacc e he
    | none =>
      rw [splitWordsF_cons_none hn] at hw
      split at hw
      · exact ih acc hacc w hw c hc
      · rcases List.mem_cons.mp hw with rfl | hw
        · exact hacc c (List.mem_reverse.mp hc)
        · exact ih [] (by simp) w hw c hc

/-- Every character of `joinHyphen ws` is a hyphen or comes from one of
the words. -/
theorem joinHyphen_mem :
    ∀ (ws : List (List Char)) (c : Char), c ∈ joinHyphen ws →
      c = '-' ∨ ∃ w ∈ ws, c ∈ w := by
  intro ws
  induction ws with
  | nil =>
    intro c hc
    simp [joinHyphen] at hc
  | cons w ws ih =>
    intro c hc
    cases ws with
    | nil =>
      simp only [joinHyphen] at hc
      exact Or.inr ⟨w, by simp, hc⟩
    | cons w' ws' =>
      simp only [joinHyphen] at hc
      rcases List.mem_append.mp hc with hc | hc
      · exact Or.inr ⟨w, by simp, hc⟩
      · rcases List.mem_cons.mp hc with rfl | hc
        · exact Or.inl rfl
        · rcases ih c hc with h | ⟨v, hv, hcv⟩
          · exact Or.inl h
          · exact Or.inr ⟨v, List.mem_cons_of_mem _ hv, hcv⟩

/-- Every character of a slug produced by `slugify` is an ASCII digit,
an ASCII lowercase letter, or a hyphen. -/
theorem slugify_chars (s : String) :
    ∀ c ∈ (slugify s).data, isSlugChar c = true := by
  intro c hc
  have hc' : c ∈ joinHyphen (splitWordsAux s.data []) := hc
  rcases joinHyphen_mem _ c hc' with rfl | ⟨w, hw, hcw⟩
  · simp [isSlugChar]
  · have hgood := splitWordsF_good normChar
      (fun c => (c.isDigit || isAsciiLower c) = true)
      (fun _ _ h => normChar_good h) s.data [] (by simp) w hw c hcw
    simp only [Bool.or_eq_true] at hgood
    simp only [isSlugChar]
    rcases hgood with h | h <;> simp [h]

/-! ## Claim theorems: slug behaviour -/

/-- C1: an `Organization` that has already been persisted (it has an
identity and a non-empty slug) keeps its slug on every subsequent save,
even when the name was changed before the save; the guard in
`Organization.save` only recomputes the slug at first save. -/
theorem org_slug_frozen_after_first_save (o : Organization) (i : Nat)
    (s : String) (hid : o.id = some i) (hs : o.slug = some s)
    (hne : s ≠ "") (n : String) :
    (Organization.assignSlug { o with name := n }).slug = some s ∧
      ∀ db db' o', Organization.save db { o with name := n } = .ok (db', o') →
        o'.slug = some s := by
  have hsE : s.isEmpty = false := by
    cases hE : s.isEmpty
    · rfl
    · exact absurd ((String.isEmpty_iff s).mp hE) hne
  have hassign :
      Organization.assignSlug { o with name := n } = { o with name := n } := by
    unfold Organization.assignSlug
    simp [hid, hs, slugTruthy, hsE]
  refine ⟨by rw [hassign]; exact hs, ?_⟩
  intro db db' o' hsave
  unfold Organization.save at hsave
  rw [hassign] at hsave
  rw [show ({ o with name := n } : Organization).id = some i from hid] at hsave
  simp only [] at hsave
  split at hsave
  · cases hsave
  · cases hsave
    exact hs

/-- C1 witness: an organization with identity 1 and slug "acme" renamed
to "Bcme" keeps slug "acme" through the slug-assignment step. -/
theorem org_slug_frozen_witness :
    (Organization.assignSlug ⟨some 1, "Bcme", some "acme"⟩).slug
      = some "acme" :=
  (org_slug_frozen_after_first_save ⟨some 1, "Acme", some "acme"⟩ 1 "acme"
    rfl rfl (by decide) "Bcme").1

/-- C5: on first persistence (no identity, no slug), the slug of an
`Organization` is `slugify` of its name and that of an `Announcement` is
`slugify` of its title, and every slug produced by `slugify` consists
only of ASCII lowercase letters, ASCII digits, and hyphens. -/
theorem first_save_slug_from_source (o : Organization) (a : Announcement)
    (ho : o.id = none) (hos : o.slug = none)
    (ha : a.id = none) (has : a.slug = none) :
    (Organization.assignSlug o).slug = some (slugify o.name) ∧
      (Announcement.assignSlug a).slug = some (slugify a.title) ∧
      (∀ c ∈ (slugify o.name).data, isSlugChar c = true) ∧
      ∀ c ∈ (slugify a.title).data, isSlugChar c = true := by
  refine ⟨?_, ?_, slugify_chars o.name, slugify_chars a.title⟩
  · unfold Organization.assignSlug
    simp [ho]
  · unfold Announcement.assignSlug
    simp [ha]

/-- C5 witness: a fresh organization named "Café Crème" gets slug
"cafe-creme" (unicode variants collapsed, lowercased, hyphenated), a
fresh announcement titled "Año 2024!" gets slug "ano-2024". -/
theorem first_save_slug_witness :
    (Organization.assignSlug ⟨none, "Café Crème", none⟩).slug
        = some (slugify "Café Crème") ∧
      (Announcement.assignSlug ⟨none, "Año 2024!", "body", none⟩).slug
        = some (slugify "Año 2024!") ∧
      slugify "Café Crème" = "cafe-creme" ∧
      slugify "Año 2024!" = "ano-2024" := by
  have h := first_save_slug_from_source ⟨none, "Café Crème", none⟩
    ⟨none, "Año 2024!", "body", none⟩ rfl rfl rfl rfl
  exact ⟨h.1, h.2.1, by decide, by decide⟩

/-- C9: a record that has an identity but an empty slug (None or the
empty string) gets its slug recomputed from the current source text on
save: the guard requires both an identity and a non-empty slug to skip
recomputation. -/
theorem empty_slug_recomputed (o : Organization) (a : Announcement)
    (i j : Nat) (hio : o.id = some i) (hso : o.slug = none ∨ o.slug = some "")
    (hia : a.id = some j) (hsa : a.slug = none ∨ a.slug = some "") :
    (Organization.assignSlug o).slug = some (slugify o.name) ∧
      (Announcement.assignSlug a).slug = some (slugify a.title) := by
  have hto : slugTruthy o.slug = false := by
    rcases hso with h | h <;> rw [h] <;> decide
  have hta : slugTruthy a.slug = false := by
    rcases hsa with h | h <;> rw [h] <;> decide
  constructor
  · unfold Organization.assignSlug
    simp [hto]
  · unfold Announcement.assignSlug
    simp [hta]

/-- C4: creating two organizations with the same name: when no existing
row already uses the derived slug, the first save succeeds and assigns
`slugify` of the name; the second save fails with a uniqueness
violation and leaves the database unchanged (no suffixing, no partial
state). -/
theorem org_duplicate_name_collision (db : OrgDB) (n : String)
    (h : ∀ r ∈ db.rows, r.slug ≠ some (slugify n)) :
    ∃ db' o',
      Organization.save db ⟨none, n, none⟩ = .ok (db', o') ∧
        o'.slug = some (slugify n) ∧
        Organization.save db' ⟨none, n, none⟩ = .error .uniqueViolation ∧
        dbAfterSave db' (Organization.save db' ⟨none, n, none⟩) = db' := by
  have hassign : Organization.assignSlug ⟨none, n, none⟩
      = ⟨none, n, some (slugify n)⟩ := by
    unfold Organization.assignSlug
    simp
  have hany : db.rows.any
      (fun r => r.slug == some (slugify n)) = false := by
    rw [List.any_eq_false]
    intro r hr
    simp only [beq_iff_eq]
    exact h r hr
  refine ⟨{ rows := db.rows ++ [⟨some db.nextId, n, some (slugify n)⟩],
            nextId := db.nextId + 1 },
          ⟨some db.nextId, n, some (slugify n)⟩, ?_, rfl, ?_, ?_⟩
  · unfold Organization.save
    rw [hassign]
    simp only []
    rw [if_neg]
    simp only [Bool.not_eq_true]
    exact hany
  · unfold Organization.save
    rw [hassign]
    simp only []
    rw [if_pos]
    simp only [List.any_append, List.any_cons, List.any_nil, beq_iff_eq,
      Bool.or_eq_true]
    right
    left
    trivial
  · unfold Organization.save
    rw [hassign]
    simp only []
    rw [if_pos]
    · rfl
    · simp only [List.any_append, List.any_cons, List.any_nil, beq_iff_eq,
        Bool.or_eq_true]
      right
      left
      trivial

/-- C4 witness: in an empty database, saving a fresh organization named
"Acme Inc" succeeds with slug "acme-inc" and saving a second fresh
organization with the same name fails with a uniqueness violation. -/
theorem org_duplicate_name_collision_witness :
    slugify "Acme Inc" = "acme-inc" ∧
      ∃ db' o',
        Organization.save ⟨[], 1⟩ ⟨none, "Acme Inc", none⟩ = .ok (db', o') ∧
          o'.slug = some (slugify "Acme Inc") ∧
          Organization.save db' ⟨none, "Acme Inc", none⟩
            = .error .uniqueViolation ∧
          dbAfterSave db' (Organization.save db' ⟨none, "Acme Inc", none⟩)
            = db' :=
  ⟨by decide,
   org_duplicate_name_collision ⟨[], 1⟩ "Acme Inc" (by simp)⟩

/-- C9 witness: an organization with identity 7 and a `None` slug
recomputes slug "new-name" from its current name, an announcement with
identity 9 and an empty-string slug recomputes slug "late-title". -/
theorem empty_slug_recomputed_witness :
    (Organization.assignSlug ⟨some 7, "New Name", none⟩).slug
        = some (slugify "New Name") ∧
      (Announcement.assignSlug ⟨some 9, "Late Title", "body", some ""⟩).slug
        = some (slugify "Late Title") :=
  empty_slug_recomputed ⟨some 7, "New Name", none⟩
    ⟨some 9, "Late Title", "body", some ""⟩ 7 9 rfl (Or.inl rfl) rfl
    (Or.inr rfl)

/-! ## Claim theorems: phone-number validation -/

/-- A run of nine to fifteen digits has length at most fifteen. -/
theorem digitsRun_length {cs : List Char} (h : digitsRun cs = true) :
    cs.length ≤ 15 := by
  unfold digitsRun at h
  simp only [Bool.and_eq_true, decide_eq_true_eq] at h
  exact h.2

/-- The tail of the pattern (optional one plus nine to fifteen digits)
has length at most sixteen. -/
theorem phoneTail_length {cs : List Char} (h : phoneTail cs = true) :
    cs.length ≤ 16 := by
  unfold phoneTail at h
  simp only [Bool.or_eq_true] at h
  rcases h with h | h
  · have := digitsRun_length h
    omega
  · cases cs with
    | nil => cases h
    | cons c rest =>
      simp only [Bool.and_eq_true] at h
      have := digitsRun_length h.2
      simp only [List.length_cons]
      omega

/-- C10: every string accepted by the phone pattern has length at most
17 (an optional plus and an optional one on top of at most fifteen
digits), so the `max_length=17` bound on `Contact.phone_number` never
rejects a value the regex validator accepts: `phoneNumberErrors` never
reports a `max_length` error on an accepted value. -/
theorem phone_accepted_within_max_length (s : String)
    (h : phoneRegexAccepts s = true) :
    s.length ≤ 17 ∧ "max_length" ∉ phoneNumberErrors s := by
  have hlen : s.length = s.data.length := rfl
  have hle : s.length ≤ 17 := by
    unfold phoneRegexAccepts at h
    rcases hd : s.data with _ | ⟨c, rest⟩
    · rw [hd] at h
      have := phoneTail_length h
      rw [hlen, hd]
      simp at this ⊢
    · rw [hd] at h
      have h' : (if (c == '+') = true then phoneTail rest
          else phoneTail (c :: rest)) = true := h
      by_cases hplus : (c == '+') = true
      · rw [if_pos hplus] at h'
        have := phoneTail_length h'
        rw [hlen, hd]
        simp only [List.length_cons]
        omega
      · rw [if_neg hplus] at h'
        have := phoneTail_length h'
        rw [hlen, hd]
        simp only [List.length_cons] at this ⊢
        omega
  refine ⟨hle, ?_⟩
  unfold phoneNumberErrors
  by_cases he : s.isEmpty
  · simp [he]
  · simp only [he, if_false, Bool.false_eq_true]
    rw [if_pos (by exact decide_eq_true_eq.mpr hle ▸ rfl), if_pos h]
    simp

/-- C10 witness: the longest accepted shape, a plus, a one and fifteen
digits, has length 17 and no `max_length` error. -/
theorem phone_accepted_within_max_length_witness :
    phoneRegexAccepts "+1123456789012345" = true ∧
      ("+1123456789012345" : String).length ≤ 17 ∧
      "max_length" ∉ phoneNumberErrors "+1123456789012345" :=
  ⟨by decide, phone_accepted_within_max_length "+1123456789012345" (by decide)⟩

/-- C6: a `Contact` that passes validation has a `phone_number` that is
empty or matches the phone pattern; and the validator reports a
field-level `invalid_phone` error on `phone_number` exactly when the
value is non-blank and fails the pattern. -/
theorem contact_phone_validation (c : Contact) :
    (contactPassesValidation c = true →
      c.phone_number = "" ∨ phoneRegexAccepts c.phone_number = true) ∧
      (("phone_number", "invalid_phone") ∈ contactFieldErrors c ↔
        c.phone_number ≠ "" ∧ phoneRegexAccepts c.phone_number = false) := by
  constructor
  · intro hpass
    unfold contactPassesValidation contactFieldErrors at hpass
    rw [List.isEmpty_iff, List.append_eq_nil] at hpass
    have he2 : phoneNumberErrors c.phone_number = [] := by
      have := hpass.2
      rcases hh : phoneNumberErrors c.phone_number with _ | ⟨e, es⟩
      · rfl
      · rw [hh] at this
        simp at this
    unfold phoneNumberErrors at he2
    by_cases hemp : c.phone_number.isEmpty
    · exact Or.inl ((String.isEmpty_iff _).mp hemp)
    · right
      rw [if_neg hemp] at he2
      rw [List.append_eq_nil] at he2
      by_cases hacc : phoneRegexAccepts c.phone_number
      · exact hacc
      · rw [if_neg hacc] at he2
        cases he2.2
  · unfold contactFieldErrors
    rw [List.mem_append]
    constructor
    · intro hmem
      rcases hmem with hmem | hmem
      · split at hmem <;> simp_all
      · rw [List.mem_map] at hmem
        obtain ⟨e, he, heq⟩ := hmem
        have hei : e = "invalid_phone" := by
          have := congrArg Prod.snd heq
          simpa using this
        subst hei
        unfold phoneNumberErrors at he
        by_cases hemp : c.phone_number.isEmpty
        · rw [if_pos hemp] at he
          cases he
        · rw [if_neg hemp] at he
          refine ⟨fun hne => hemp ((String.isEmpty_iff _).mpr hne), ?_⟩
          rw [List.mem_append] at he
          rcases he with he | he
          · split at he <;> simp_all
          · by_cases hacc : phoneRegexAccepts c.phone_number
            · rw [if_pos hacc] at he
              cases he
            · simp_all
    · intro ⟨hne, hacc⟩
      right
      rw [List.mem_map]
      refine ⟨"invalid_phone", ?_, rfl⟩
      unfold phoneNumberErrors
      have hemp : c.phone_number.isEmpty = false := by
        cases hE : c.phone_number.isEmpty
        · rfl
        · exact absurd ((String.isEmpty_iff _).mp hE) hne
      rw [if_neg (by simp [hemp])]
      rw [List.mem_append]
      right
      rw [if_neg (by simp [hacc])]
      simp

/-- C6 witness: a contact with phone "+15551234567" passes the phone
check, and a contact with non-blank phone "abc" gets a field-level
`invalid_phone` error on `phone_number`. -/
theorem contact_phone_validation_witness :
    ("+15551234567" = "" ∨ phoneRegexAccepts "+15551234567" = true) ∧
      ("phone_number", "invalid_phone")
        ∈ contactFieldErrors ⟨"Ann", "abc"⟩ :=
  ⟨(contact_phone_validation ⟨"Ann", "+15551234567"⟩).1 (by decide),
   (contact_phone_validation ⟨"Ann", "abc"⟩).2.mpr ⟨by decide, by decide⟩⟩

/-! ## Claim theorems: user flags -/

/-- C2: the student/teacher exclusivity constraint is enforced on every
insert and update: a row violating it is rejected with a constraint
error, and any database whose rows all satisfy it still satisfies it
after a successful save (so every persisted `User` row has exactly one
of the two flags set). -/
theorem user_flags_exclusive (db : List UserRow) (u : UserRow)
    (hdb : ∀ r ∈ db, studentTeacherCheck r = true) :
    (studentTeacherCheck u = false →
      saveUserRow db u = .error .checkViolation) ∧
      ∀ db', saveUserRow db u = .ok db' →
        studentTeacherCheck u = true ∧
          ∀ r ∈ db', studentTeacherCheck r = true := by
  constructor
  · intro hc
    unfold saveUserRow
    simp [hc]
  · intro db' hsave
    unfold saveUserRow at hsave
    cases hc : studentTeacherCheck u with
    | false =>
      rw [hc] at hsave
      simp at hsave
    | true =>
      rw [hc] at hsave
      simp only [Bool.not_true, Bool.false_eq_true, if_false] at hsave
      refine ⟨rfl, ?_⟩
      split at hsave
      · cases hsave
      · split at hsave
        · cases hsave
          intro r hr
          rw [List.mem_map] at hr
          obtain ⟨r₀, hr₀, rfl⟩ := hr
          split
          · exact hc
          · exact hdb r₀ hr₀
        · cases hsave
          intro r hr
          rcases List.mem_append.mp hr with hr | hr
          · exact hdb r hr
          · rw [List.mem_singleton] at hr
            subst hr
            exact hc

/-- C2 witness: inserting a row with both flags set fails with the
check violation, and after inserting a valid student row every stored
row satisfies the exclusivity check. -/
theorem user_flags_exclusive_witness :
    saveUserRow [] ⟨1, "x@y.com", "X", true, true⟩
        = .error .checkViolation ∧
      studentTeacherCheck ⟨2, "a@b.com", "A", true, false⟩ = true :=
  ⟨(user_flags_exclusive [] ⟨1, "x@y.com", "X", true, true⟩
      (by simp)).1 (by decide),
   ((user_flags_exclusive [] ⟨2, "a@b.com", "A", true, false⟩ (by simp)).2
      [⟨2, "a@b.com", "A", true, false⟩] (by rfl)).2
      ⟨2, "a@b.com", "A", true, false⟩ (by simp)⟩

/-! ## Claim theorems: student ids -/

/-- C3 counterexample: a `StudentProfile` whose `student_id` is the
five-character string "12345" passes validation (`max_length=9` only
bounds the length above) and saves successfully, so a saved
`student_id` is not necessarily exactly 9 characters. -/
theorem student_id_short_id_saves :
    saveStudentProfile [] ⟨1, "12345"⟩ = .ok [⟨1, "12345"⟩] ∧
      ("12345" : String).length ≠ 9 := by
  constructor
  · rfl
  · decide

/-- C3 amended: every successfully saved `StudentProfile` has a
`student_id` of length between 1 and 9 (required, `max_length=9`), and
saving preserves pairwise distinctness of `student_id` (the storage
layer's `unique=True`). -/
theorem student_id_bounded_and_unique (db : List StudentProfile)
    (p : StudentProfile) (db' : List StudentProfile)
    (hdb : List.Pairwise (fun a b => a.student_id ≠ b.student_id) db)
    (hsave : saveStudentProfile db p = .ok db') :
    1 ≤ p.student_id.length ∧ p.student_id.length ≤ 9 ∧
      List.Pairwise (fun a b => a.student_id ≠ b.student_id) db' := by
  unfold saveStudentProfile at hsave
  cases herr : (studentIdErrors p.student_id).isEmpty with
  | false =>
    rw [herr] at hsave
    simp at hsave
  | true =>
    rw [herr] at hsave
    simp only [Bool.not_true, Bool.false_eq_true, if_false] at hsave
    rw [List.isEmpty_iff] at herr
    unfold studentIdErrors at herr
    rw [List.append_eq_nil] at herr
    obtain ⟨herr1, herr2⟩ := herr
    have hne : p.student_id.isEmpty = false := by
      cases hE : p.student_id.isEmpty
      · rfl
      · rw [if_pos hE] at herr1
        cases herr1
    have hle : p.student_id.length ≤ 9 := by
      by_contra hL
      rw [if_neg (by simp only [decide_eq_true_eq]; exact hL)] at herr2
      cases herr2
    have hpos : 1 ≤ p.student_id.length := by
      by_contra hlt
      have h0 : p.student_id.length = 0 := by omega
      have hdata : p.student_id.data = [] := List.length_eq_zero.mp h0
      have hempty : p.student_id = "" := by
        apply String.ext
        rw [hdata]
      rw [hempty] at hne
      cases hne
    refine ⟨hpos, hle, ?_⟩
    split at hsave
    · cases hsave
    · cases hsave
      rw [List.pairwise_append]
      refine ⟨hdb, by simp, ?_⟩
      intro a ha b hb
      rw [List.mem_singleton] at hb
      intro heq
      rw [hb] at heq
      rename_i hany
      have hany' : (db.any fun r => r.student_id == p.student_id) = false := by
        simpa using hany
      rw [List.any_eq_false] at hany'
      have hne2 := hany' a ha
      rw [beq_iff_eq] at hne2
      exact hne2 heq

/-- C3 amended witness: inserting id "123456789" into an empty table
yields a 9-character id within bounds and a pairwise-distinct table. -/
theorem student_id_bounded_and_unique_witness :
    1 ≤ ("123456789" : String).length ∧
      ("123456789" : String).length ≤ 9 ∧
      List.Pairwise (fun a b => a.student_id ≠ b.student_id)
        [(⟨1, "123456789"⟩ : StudentProfile)] := by
  have h := student_id_bounded_and_unique [] ⟨1, "123456789"⟩
    [⟨1, "123456789"⟩] (by simp) (by rfl)
  exact h

/-! ## Claim theorems: event join and leave -/

/-- `joinEvent` does nothing when the user is already an attendee. -/
theorem joinEvent_of_mem {l : List Nat} {u : Nat} (h : u ∈ l) :
    joinEvent l u = l := by
  unfold joinEvent
  rw [if_pos h]

/-- The user is an attendee after joining. -/
theorem mem_joinEvent (l : List Nat) (u : Nat) : u ∈ joinEvent l u := by
  unfold joinEvent
  split
  · assumption
  · simp

/-- C7: joining is idempotent (a second join changes nothing, and the
user appears exactly once after a join whenever the attendee set held
the user at most once before), joining while already an attendee
changes nothing, and leaving while not an attendee changes nothing. -/
theorem event_join_leave_idempotent (a : List Nat) (u : Nat) :
    joinEvent (joinEvent a u) u = joinEvent a u ∧
      (a.count u ≤ 1 → (joinEvent a u).count u = 1) ∧
      (u ∈ a → joinEvent a u = a) ∧
      (u ∉ a → leaveEvent a u = a) := by
  refine ⟨joinEvent_of_mem (mem_joinEvent a u), ?_, fun h => joinEvent_of_mem h, ?_⟩
  · intro hc
    unfold joinEvent
    split
    · rename_i hin
      have := List.count_pos_iff.mpr hin
      omega
    · rename_i hout
      rw [List.count_append, List.count_eq_zero.mpr hout]
      simp
  · intro hout
    unfold leaveEvent
    rw [List.filter_eq_self]
    intro x hx
    simp only [Bool.not_eq_true']
    rw [beq_eq_false_iff_ne]
    intro heq
    subst heq
    exact hout hx

/-- C7 witness: joining event attendees [5] twice as user 7 leaves user
7 present exactly once; user 5 re-joining changes nothing; user 7
leaving [5] changes nothing. -/
theorem event_join_leave_idempotent_witness :
    joinEvent (joinEvent [5] 7) 7 = joinEvent [5] 7 ∧
      (joinEvent [5] 7).count 7 = 1 ∧
      joinEvent [5] 5 = [5] ∧
      leaveEvent [5] 7 = [5] :=
  ⟨(event_join_leave_idempotent [5] 7).1,
   (event_join_leave_idempotent [5] 7).2.1 (by decide),
   (event_join_leave_idempotent [5] 5).2.2.1 (by decide),
   (event_join_leave_idempotent [5] 7).2.2.2 (by decide)⟩

/-! ## Claim theorems: user self-update view -/

/-- C8: a valid self-update form submission produces an HTTP 302
redirect to the requesting user's own detail page `/users/<pk>/` and
appends exactly one success notification to the session's message
list. -/
theorem user_update_redirects_and_notifies (pk : Nat)
    (msgs : List String) :
    (formValid pk msgs).1.status = 302 ∧
      (formValid pk msgs).1.location = "/users/" ++ toString pk ++ "/" ∧
      (formValid pk msgs).2 = msgs ++ [successMessage] ∧
      (formValid pk msgs).2.length = msgs.length + 1 := by
  refine ⟨rfl, rfl, rfl, ?_⟩
  unfold formValid
  simp

end Stavros
